import Mathlib

/-!
Verification development for the Cyberismo data-handler core
(`src/tools/data-handler/src/create.ts`, `src/tools/data-handler/src/rename.ts`,
and the JSON schema documents `cardtree-directory-schema` and `card-base-schema`).

The TypeScript operations are shallowly embedded: strings are `List Char`,
the on-disk project is an explicit state value, fallible operations return
`Except`, and `Promise` failure propagation is modelled by sequential
`Except` composition (which is how the source awaits each call).
-/

namespace Cyberismo

/-! ## String machinery: the rename substitution regex

`Rename.rename` builds `new RegExp(from + "(?!.*" + from + ")")` and applies
`String.replace` with it.  For a literal pattern this regex matches at the
leftmost index `i` such that the pattern occurs at `i` and no occurrence of
the pattern starts at or after `i + pattern.length`; `replace` then splices
the replacement over that single match. -/

/-- Does `pat` occur in `s` starting at index `i`? -/
def occAt (pat s : List Char) (i : Nat) : Bool :=
  decide ((s.drop i).take pat.length = pat)

/-- True when no occurrence of `pat` in `s` starts at or after `i + pat.length`.
This is the negative lookahead part of the source regex. -/
def noLaterOcc (pat s : List Char) (i : Nat) : Bool :=
  decide (∀ j, j ≤ s.length → i + pat.length ≤ j → occAt pat s j = false)

/-- Leftmost index at or after `start` (within `fuel` candidates) satisfying `p`:
the regex engine's left-to-right scan. -/
def findFirstIdx (p : Nat → Bool) : Nat → Nat → Option Nat
  | _, 0 => none
  | start, fuel + 1 =>
    if p start then some start else findFirstIdx p (start + 1) fuel

/-- One-shot `String.replace` with the source regex `from(?!.*from)`:
replace the leftmost occurrence of `pat` that has no later occurrence. -/
def jsReplaceOne (pat rep s : List Char) : List Char :=
  match findFirstIdx (fun i => occAt pat s i && noLaterOcc pat s i) 0
      (s.length + 1) with
  | some i => s.take i ++ rep ++ s.drop (i + pat.length)
  | none => s

/-- Greatest index below the bound satisfying `p`. -/
def findLastIdx (p : Nat → Bool) : Nat → Option Nat
  | 0 => none
  | n + 1 => if p n then some n else findLastIdx p n

/-- Modelled from the spec's words (for comparison with `jsReplaceOne`, which is
translated from the source): replace the last occurrence of `pat` in `s`,
leaving everything before it unchanged. -/
def specReplaceLast (pat rep s : List Char) : List Char :=
  match findLastIdx (occAt pat s) (s.length + 1) with
  | some i => s.take i ++ rep ++ s.drop (i + pat.length)
  | none => s

/-! ## Rename engine model (`src/tools/data-handler/src/rename.ts`)

A card on disk, as the rename pass touches it: its directory path, the file
names in its attachment folder, the bytes of its `index.adoc`, and whether it
lives inside a template tree (`Project.isTemplateCard`). -/

structure FsCard where
  path : List Char
  attachmentNames : List (List Char)
  adoc : List Char
  isTemplate : Bool
deriving DecidableEq

/-- The comparator `Rename.sortCards`: `-1` when `a`'s path is longer,
`1` when shorter, `0` otherwise (sort deepest paths first). -/
def sortCardsCmp (a b : FsCard) : Int :=
  if a.path.length > b.path.length then -1
  else if a.path.length < b.path.length then 1
  else 0

/-- The order induced by handing `sortCardsCmp` to `Array.prototype.sort`:
`a` may stay before `b` exactly when the comparator is non-positive. -/
def cardOrder (a b : FsCard) : Prop := sortCardsCmp a b ≤ 0

instance : DecidableRel cardOrder := fun a b => by
  unfold cardOrder
  infer_instance

instance : IsTotal FsCard cardOrder :=
  ⟨fun a b => by
    unfold cardOrder sortCardsCmp
    split_ifs <;> omega⟩

instance : IsTrans FsCard cardOrder :=
  ⟨fun a b c hab hbc => by
    unfold cardOrder sortCardsCmp at hab hbc ⊢
    split_ifs at hab hbc ⊢ <;> omega⟩

/-- Directory path `p` is a strict ancestor of path `q`: `q` continues `p`
through at least one more path separator. -/
def strictAnc (p q : List Char) : Prop := ∃ r, q = p ++ '/' :: r

/-- The option record passed to the card enumeration
(`findSpecificCard` / `Project.cards`-style reads). -/
structure CardReadOptions where
  metadata : Bool := false
  children : Bool := false
  content : Bool := false
  attachments : Bool := false

/-- `Rename.rename` enumerates cards with `{ metadata: true, attachments: true }`
— the `content` field is never requested. -/
def renameReadOptions : CardReadOptions :=
  { metadata := true, attachments := true }

/-- The in-memory `content` field of an enumerated card: populated from
`index.adoc` only when the read options ask for content. -/
def fetchContent (opts : CardReadOptions) (c : FsCard) : Option (List Char) :=
  if opts.content then some c.adoc else none

/-- `Rename.replaceCardPath`: for a template card only the directory is
renamed; for a live card every attachment file name is rewritten with the
same regex, and for each attachment `index.adoc` is rewritten wholesale from
the in-memory `content` field (`card.content || ''`).  The in-content
`image::` reference rewrite acts on that same `content` field, which is
`none` for every card the rename pass enumerates, so the written bytes are
the empty string whenever the card has at least one attachment. -/
def replaceCardPathModel (opts : CardReadOptions) (pat rep : List Char)
    (c : FsCard) : FsCard :=
  if c.isTemplate then
    { c with path := jsReplaceOne pat rep c.path }
  else
    { path := jsReplaceOne pat rep c.path,
      attachmentNames := c.attachmentNames.map (jsReplaceOne pat rep),
      adoc := if c.attachmentNames.isEmpty then c.adoc
              else (fetchContent opts c).getD [],
      isTemplate := c.isTemplate }

/-- The slice of on-disk project state the rename pass reads and writes:
the configured card-key prefix and the card forest (live and local-template
cards together; the source runs the same per-card rewrite over both, deepest
paths first in each pass). -/
structure RenState where
  keyPfx : List Char
  cards : List FsCard

/-- `Rename.rename`: read the old prefix from the configuration, store the
new one, enumerate cards with `renameReadOptions`, sort them deepest-first
with `sortCards`, and apply `replaceCardPath` to each in that order. -/
def renameOp (rep : List Char) (s : RenState) : RenState :=
  { keyPfx := rep,
    cards := (List.insertionSort cardOrder s.cards).map
      (replaceCardPathModel renameReadOptions s.keyPfx rep) }

/-- A concrete live card with one attachment and non-empty body. -/
def c10Card : FsCard :=
  ⟨"/demo/cardroot/ab_1".toList, ["ab_1_figure.png".toList],
    "some body text".toList, false⟩

/-- A one-card project state with prefix `ab`. -/
def c10State : RenState := ⟨"ab".toList, [c10Card]⟩

/-! ## Create engine model (`src/tools/data-handler/src/create.ts`)

Directories are association lists from file name to file content; fallible
operations return `Except`.  A thrown `Error` aborts the TypeScript
operation before any later write, which the `Except` error branch mirrors. -/

/-- Error taxonomy distinguished by the create operations.  `alreadyExists`
is the descriptive error thrown by a pre-write uniqueness check;
`writeConflict` is the failure of an exclusive create (`flag: 'wx'` or
`COPYFILE_EXCL`) when the target file already exists on disk. -/
inductive CreateError where
  | alreadyExists (kind name : String)
  | writeConflict (fileName : String)
  | workflowMissing (name : String)
  | dataTypeNotSupported (dataType : String)
  | invalidContent (schemaId : String)
  | notFound (what : String)
  | forbidden (what : String)
  | integrity (what : String)
deriving DecidableEq

/-- First entry with the given key in an association list. -/
def lookupEntry {α : Type} : List (String × α) → String → Option α
  | [], _ => none
  | (k, v) :: rest, key => if k = key then some v else lookupEntry rest key

/-- Replace the value stored under the given key (first occurrence). -/
def updateEntry {α : Type} : List (String × α) → String → α → List (String × α)
  | [], _, _ => []
  | (k, v) :: rest, key, nv =>
    if k = key then (k, nv) :: rest else (k, v) :: updateEntry rest key nv

/-- `writeFile(..., { flag: 'wx' })` / `copyFile(..., COPYFILE_EXCL)`:
fail instead of overwriting when the target name already exists. -/
def writeExclusive (files : List (String × String)) (name content : String) :
    Except CreateError (List (String × String)) :=
  if (lookupEntry files name).isSome then
    Except.error (CreateError.writeConflict name)
  else Except.ok (files ++ [(name, content)])

/-- The resource directories of one project under `.cards/local`. -/
structure ProjectFiles where
  cardtypes : List (String × String)
  fieldtypes : List (String × String)
  linktypes : List (String × String)
  workflows : List (String × String)
deriving DecidableEq

/-- Modelled from the spec (§4.1 read accessors): `Project.fieldtypes()`,
`Project.linkTypes()` and `Project.workflows()` list the resource files of
the collection directory; `Create.fieldTypeExists` (and the link-type and
workflow variants) then `find` an item whose name is `name + '.json'` or
bare `name`. -/
def resourceExists (files : List (String × String)) (name : String) : Bool :=
  files.any (fun entry => entry.1 = name ++ ".json" || entry.1 = name)

/-- Serialized `formatJson({ name, workflow })` content of a cardtype file
(the claims never inspect file contents, only their presence). -/
def cardtypeJson (name workflow : String) : String :=
  "name=" ++ name ++ ";workflow=" ++ workflow

/-- Serialized `formatJson({ name, dataType })` content of a field type file. -/
def fieldTypeJson (name dataType : String) : String :=
  "name=" ++ name ++ ";dataType=" ++ dataType

/-- Serialized `Create.getLinkTypeContent(name)` default link type document. -/
def linkTypeJson (name : String) : String :=
  "name=" ++ name ++ ";outboundDisplayName=" ++ name ++
    ";inboundDisplayName=" ++ name

/-- `Create.createCardtype`: check that the workflow exists, then write the
cardtype file with the exclusive-create flag.  There is no cardtype
name-uniqueness check. -/
def createCardtypeModel (p : ProjectFiles) (name workflow : String) :
    Except CreateError ProjectFiles :=
  if !(resourceExists p.workflows workflow) then
    Except.error (CreateError.workflowMissing workflow)
  else
    match writeExclusive p.cardtypes (name ++ ".json")
        (cardtypeJson name workflow) with
    | Except.error e => Except.error e
    | Except.ok files => Except.ok { p with cardtypes := files }

/-- Structural split used by `Create.supportedFieldTypes`
(`pattern.replace(/\$|\^/g, '').split('|')`). -/
def splitChunks (sep : Char) : List Char → List (List Char)
  | [] => [[]]
  | c :: rest =>
    match splitChunks sep rest with
    | [] => [[]]
    | h :: t => if c = sep then [] :: h :: t else (c :: h) :: t

/-- `Create.supportedFieldTypes`, parameterized by the `dataType` pattern
string read from `field-type-schema.json` (the schema document itself is
outside the excerpted sources): strip every `^` and `$` and split on `|`. -/
def supportedFieldTypes (pattern : String) : List String :=
  (splitChunks '|'
    (pattern.toList.filter (fun ch => ch ≠ '$' && ch ≠ '^'))).map String.mk

/-- `Create.createFieldType`: uniqueness check first, then the supported
data-type check against the schema-derived set, then an exclusive write. -/
def createFieldTypeModel (pattern : String) (p : ProjectFiles)
    (fieldTypeName dataType : String) : Except CreateError ProjectFiles :=
  if resourceExists p.fieldtypes fieldTypeName then
    Except.error (CreateError.alreadyExists "field type" fieldTypeName)
  else if dataType ∈ supportedFieldTypes pattern then
    match writeExclusive p.fieldtypes (fieldTypeName ++ ".json")
        (fieldTypeJson fieldTypeName dataType) with
    | Except.error e => Except.error e
    | Except.ok files => Except.ok { p with fieldtypes := files }
  else Except.error (CreateError.dataTypeNotSupported dataType)

/-- `Create.createLinkType`: uniqueness check first, then schema validation
of the default content (the validator is an external collaborator passed in
as a function returning the violation list), then an exclusive write. -/
def createLinkTypeModel (validate : String → List String) (p : ProjectFiles)
    (linkTypeName : String) : Except CreateError ProjectFiles :=
  if resourceExists p.linktypes linkTypeName then
    Except.error (CreateError.alreadyExists "link type" linkTypeName)
  else if (validate (linkTypeJson linkTypeName)).length ≠ 0 then
    Except.error (CreateError.invalidContent "link-type-schema")
  else
    match writeExclusive p.linktypes (linkTypeName ++ ".json")
        (linkTypeJson linkTypeName) with
    | Except.error e => Except.error e
    | Except.ok files => Except.ok { p with linktypes := files }

/-- A workflow document: its `name` field and its remaining serialized
content. -/
structure WorkflowDoc where
  name : String
  body : String
deriving DecidableEq

/-- `Create.createWorkflow`: schema validation, then an exclusive write to
`<name>.json`.  There is no workflow name-uniqueness check. -/
def createWorkflowModel (validate : WorkflowDoc → List String)
    (p : ProjectFiles) (wf : WorkflowDoc) : Except CreateError ProjectFiles :=
  if (validate wf).length ≠ 0 then
    Except.error (CreateError.invalidContent "workflow-schema")
  else
    match writeExclusive p.workflows (wf.name ++ ".json") wf.body with
    | Except.error e => Except.error e
    | Except.ok files => Except.ok { p with workflows := files }

/-- `Create.createAttachment`: resolve the card's attachment folder (error
when absent), reject imported modules, then copy or write the attachment
with exclusive-create semantics. -/
def createAttachmentModel (attachmentFolder : Option (List (String × String)))
    (inModule : Bool) (fileName content : String) :
    Except CreateError (List (String × String)) :=
  match attachmentFolder with
  | none => Except.error (CreateError.notFound "attachment folder")
  | some files =>
    if inModule then Except.error (CreateError.forbidden "imported module")
    else writeExclusive files fileName content

/-! ## Link creation model (`Create.createLink`) -/

/-- One entry of a card's `links` array as `createLink` builds it:
`{ linkType, cardKey, linkDescription }` (the description key is dropped by
`JSON.stringify` when the argument was omitted). -/
structure LinkRec where
  linkType : String
  cardKey : String
  linkDescription : Option String
deriving DecidableEq

/-- The object literal pushed by `Create.createLink` onto the source card's
`links` array. -/
def createLinkEntry (linkType cardKey : String)
    (linkDescription : Option String) : LinkRec :=
  ⟨linkType, cardKey, linkDescription⟩

/-- Keys of the serialized link entry: `linkType`, `cardKey`, and
`linkDescription` only when a description was given.  No `direction` key is
ever produced. -/
def linkEntryKeys (l : LinkRec) : List String :=
  ["linkType", "cardKey"] ++
    (match l.linkDescription with
     | some _ => ["linkDescription"]
     | none => [])

/-- From `card-base-schema` (`links.items.required`): the schema requires
`direction`, `cardkey` and `linktype` on every link entry. -/
def cardBaseLinkRequired : List String := ["direction", "cardkey", "linktype"]

/-- From `card-base-schema` (`links.items.properties`): the declared
property names, spelled `cardkey` and `linktype`. -/
def cardBaseLinkPropertyNames : List String :=
  ["cardkey", "linktype", "linkDescription"]

/-- From `card-base-schema` (`links.items.additionalProperties`). -/
def cardBaseLinkAdditionalProperties : Bool := false

/-- Project state as `createLink` reads it: the link type resource files
and each card's `links` array, keyed by card key. -/
structure LinkState where
  linkTypeFiles : List (String × String)
  cards : List (String × List LinkRec)
deriving DecidableEq

/-- The duplicate test of `createLink`: an existing link with the identical
`(linkType, cardKey, linkDescription)` tuple. -/
def duplicateLink (links : List LinkRec) (linkType destKey : String)
    (desc : Option String) : Bool :=
  links.any (fun l =>
    decide (l.linkType = linkType) && decide (l.cardKey = destKey) &&
      decide (l.linkDescription = desc))

/-- `Create.createLink`: resolve the source card (with metadata), resolve
the destination card's path, check the link type exists, reject an
identical existing tuple, then append one entry and persist the whole
`links` array through `updateCardMetadata`. -/
def createLinkModel (st : LinkState) (cardKey destKey linkType : String)
    (desc : Option String) : Except CreateError LinkState :=
  match lookupEntry st.cards cardKey with
  | none => Except.error (CreateError.notFound ("card " ++ cardKey))
  | some links =>
    if (lookupEntry st.cards destKey).isNone then
      Except.error (CreateError.notFound ("card " ++ destKey))
    else if !(resourceExists st.linkTypeFiles linkType) then
      Except.error (CreateError.notFound ("link type " ++ linkType))
    else if duplicateLink links linkType destKey desc then
      Except.error (CreateError.integrity "link already exists")
    else
      Except.ok { st with cards := (updateEntry st.cards cardKey
        (links ++ [createLinkEntry linkType destKey desc])) }

/-! ## Bulk card addition model (`Create.addCards`) -/

/-- The human-readable result of a successful `addCards` call: the message
text differentiates singular and plural counts. -/
inductive AddCardsMsg where
  | singular (cardKey : String)
  | plural (count : Nat) (cardKeys : List String)
deriving DecidableEq

/-- Settlement of the `count` `addCard` calls.  The source awaits each
`templateObject.addCard(...)` inside the loop that fills
`promiseContainer`, so the first rejection propagates immediately as the
rejection of `addCards`; when all calls succeed their values are collected
in order (and the `allSettled` handler would likewise throw on any
non-fulfilled outcome). -/
def collectAddCards (addCard : Nat → Except String String) :
    Nat → Except String (List String)
  | 0 => Except.ok []
  | n + 1 =>
    match collectAddCards addCard n with
    | Except.error e => Except.error e
    | Except.ok acc =>
      match addCard n with
      | Except.error e => Except.error e
      | Except.ok v => Except.ok (acc ++ [v])

/-- `Create.addCards` after template resolution: run the `count` calls,
fail on the first per-item failure, report `Invalid value for repeat` when
nothing was collected, and otherwise return the singular or plural
message. -/
def addCardsModel (count : Nat) (addCard : Nat → Except String String) :
    Except String AddCardsMsg :=
  match collectAddCards addCard count with
  | Except.error e => Except.error e
  | Except.ok cards =>
    if cards.length = 0 then
      Except.error "Invalid value for repeat"
    else if count > 1 then Except.ok (AddCardsMsg.plural count cards)
    else Except.ok (AddCardsMsg.singular (cards.headD ""))

/-! ## Claim theorems for the create engine -/

deriving instance DecidableEq for Except

/-- A concrete family of `addCard` outcomes: call 0 succeeds, call 1 fails. -/
def c1AddCard : Nat → Except String String :=
  fun i => if i = 0 then Except.ok "decision_5" else Except.error "EEXIST"

/-- A project that already contains cardtype `page.json`, workflow
`basic.json`, field type `size.json` and link type `blocks.json`. -/
def c2Project : ProjectFiles :=
  { cardtypes := [("page.json", "existing cardtype")],
    fieldtypes := [("size.json", "existing field type")],
    linktypes := [("blocks.json", "existing link type")],
    workflows := [("basic.json", "existing workflow")] }

/-- A schema validator that reports no violations. -/
def acceptAllWorkflows : WorkflowDoc → List String := fun _ => []

/-- A concrete workflow document named like the existing `basic.json`. -/
def c2Workflow : WorkflowDoc := ⟨"basic", "workflow body"⟩

/-- A link-type schema validator that reports no violations. -/
def acceptAllLinkTypes : String → List String := fun _ => []

/-- The data-type pattern declared by `field-type-schema.json` for the
`dataType` property (shape as read at runtime by `supportedFieldTypes`). -/
def c8Pattern : String := "^shortText$|^longText$|^number$"

/-- A project whose field type collection does not contain `width`. -/
def c8FreeProject : ProjectFiles :=
  { cardtypes := [], fieldtypes := [("other.json", "x")],
    linktypes := [], workflows := [] }

/-- The project produced by successfully adding field type `area` to
`c2Project`. -/
def c6Result : ProjectFiles :=
  { c2Project with fieldtypes := (c2Project.fieldtypes
      ++ [("area.json", fieldTypeJson "area" "number")]) }

/-- A two-card project with link type `blocks` and one existing link from
`demo_1` to `demo_2` without a description. -/
def c7State : LinkState :=
  { linkTypeFiles := [("blocks.json", "link type content")],
    cards := [("demo_1", [⟨"blocks", "demo_2", none⟩]), ("demo_2", [])] }

/-- The state after successfully adding the described link. -/
def c7Succ : LinkState :=
  { linkTypeFiles := [("blocks.json", "link type content")],
    cards := [("demo_1", [⟨"blocks", "demo_2", none⟩,
      ⟨"blocks", "demo_2", some "why"⟩]), ("demo_2", [])] }

/-! ### Lemmas about the scan functions -/

theorem findFirstIdx_eq_some {p : Nat → Bool} :
    ∀ {start fuel i : Nat}, findFirstIdx p start fuel = some i →
      p i = true ∧ start ≤ i ∧ i < start + fuel ∧
        ∀ k, start ≤ k → k < i → p k = false := by
  intro start fuel
  induction fuel generalizing start with
  | zero => intro i h; simp [findFirstIdx] at h
  | succ n ih =>
    intro i h
    unfold findFirstIdx at h
    by_cases hp : p start = true
    · rw [if_pos hp] at h
      cases h
      exact ⟨hp, Nat.le_refl _, Nat.lt_of_lt_of_le (Nat.lt_succ_self _)
        (by omega), fun k hk hk' => absurd hk' (by omega)⟩
    · rw [if_neg hp] at h
      obtain ⟨h1, h2, h3, h4⟩ := ih h
      refine ⟨h1, by omega, by omega, fun k hk hk' => ?_⟩
      rcases Nat.eq_or_lt_of_le hk with rfl | hlt
      · exact Bool.eq_false_iff.mpr hp
      · exact h4 k hlt hk'

theorem findFirstIdx_eq_some_of {p : Nat → Bool} :
    ∀ {start fuel M : Nat}, p M = true → start ≤ M → M < start + fuel →
      (∀ k, start ≤ k → k < M → p k = false) →
      findFirstIdx p start fuel = some M := by
  intro start fuel
  induction fuel generalizing start with
  | zero => intro M _ h1 h2 _; omega
  | succ n ih =>
    intro M hM hle hlt hbelow
    unfold findFirstIdx
    rcases Nat.eq_or_lt_of_le hle with rfl | hstrict
    · rw [if_pos hM]
    · rw [if_neg ?_]
      · exact ih hM hstrict (by omega) (fun k hk hk' => hbelow k (by omega) hk')
      · have := hbelow start (Nat.le_refl _) hstrict
        simp [this]

theorem findFirstIdx_eq_none_of {p : Nat → Bool} :
    ∀ {start fuel : Nat}, (∀ k, start ≤ k → k < start + fuel → p k = false) →
      findFirstIdx p start fuel = none := by
  intro start fuel
  induction fuel generalizing start with
  | zero => intro _; rfl
  | succ n ih =>
    intro h
    unfold findFirstIdx
    rw [if_neg, ih]
    · intro k hk hk'; exact h k (by omega) (by omega)
    · have := h start (Nat.le_refl _) (by omega)
      simp [this]

theorem findLastIdx_eq_some {p : Nat → Bool} :
    ∀ {n i : Nat}, findLastIdx p n = some i →
      p i = true ∧ i < n ∧ ∀ k, i < k → k < n → p k = false := by
  intro n
  induction n with
  | zero => intro i h; simp [findLastIdx] at h
  | succ m ih =>
    intro i h
    unfold findLastIdx at h
    by_cases hp : p m = true
    · rw [if_pos hp] at h
      cases h
      exact ⟨hp, Nat.lt_succ_self _, fun k hk hk' => by omega⟩
    · rw [if_neg hp] at h
      obtain ⟨h1, h2, h3⟩ := ih h
      refine ⟨h1, by omega, fun k hk hk' => ?_⟩
      rcases Nat.lt_succ_iff_lt_or_eq.mp hk' with hlt | rfl
      · exact h3 k hk hlt
      · exact Bool.eq_false_iff.mpr hp

theorem findLastIdx_eq_none {p : Nat → Bool} :
    ∀ {n : Nat}, findLastIdx p n = none → ∀ k, k < n → p k = false := by
  intro n
  induction n with
  | zero => intro _ k hk; omega
  | succ m ih =>
    intro h k hk
    unfold findLastIdx at h
    by_cases hp : p m = true
    · rw [if_pos hp] at h; cases h
    · rw [if_neg hp] at h
      rcases Nat.lt_succ_iff_lt_or_eq.mp hk with hlt | rfl
      · exact ih h k hlt
      · exact Bool.eq_false_iff.mpr hp

/-- An occurrence of a nonempty pattern starts strictly inside the string. -/
theorem occAt_lt_length {pat s : List Char} {i : Nat} (hpat : pat ≠ [])
    (h : occAt pat s i = true) : i < s.length := by
  unfold occAt at h
  rw [decide_eq_true_iff] at h
  by_contra hge
  have hdrop : s.drop i = [] := List.drop_eq_nil_of_le (by omega)
  rw [hdrop] at h
  simp at h
  exact hpat h

/-- Replacing an occurrence of `pat` by `pat` itself is the identity. -/
theorem splice_self {pat s : List Char} {i : Nat} (h : occAt pat s i = true) :
    s.take i ++ pat ++ s.drop (i + pat.length) = s := by
  unfold occAt at h
  rw [decide_eq_true_iff] at h
  have hsplit : s.drop i = pat ++ s.drop (i + pat.length) := by
    conv_lhs => rw [← List.take_append_drop pat.length (s.drop i)]
    rw [h, List.drop_drop, Nat.add_comm]
  calc s.take i ++ pat ++ s.drop (i + pat.length)
      = s.take i ++ (pat ++ s.drop (i + pat.length)) := by
        rw [List.append_assoc]
    _ = s.take i ++ s.drop i := by rw [← hsplit]
    _ = s := List.take_append_drop i s

/-- C4 (amended): the substitution regex `from(?!.*from)` matches the
leftmost occurrence of the old prefix that has no later occurrence; whenever
the occurrences of the (nonempty) prefix in the processed card path or
attachment file name are pairwise non-overlapping, this is exactly the last
occurrence, so only it is replaced and everything before it — in particular
every earlier occurrence — is left unchanged.  (With overlapping
occurrences the regex may instead replace an earlier, overlapping
occurrence; see the counterexample.) -/
theorem claim_c4_last_occurrence_amended (pat rep s : List Char)
    (hpat : pat ≠ [])
    (hsep : ∀ i j, occAt pat s i = true → occAt pat s j = true → i < j →
      i + pat.length ≤ j) :
    jsReplaceOne pat rep s = specReplaceLast pat rep s := by
  unfold jsReplaceOne specReplaceLast
  cases hlast : findLastIdx (occAt pat s) (s.length + 1) with
  | none =>
    have hall : ∀ k, occAt pat s k = false := by
      intro k
      by_cases hk : k < s.length + 1
      · exact findLastIdx_eq_none hlast k hk
      · by_contra hocc
        rw [Bool.not_eq_false] at hocc
        exact hk (Nat.lt_succ_of_lt (occAt_lt_length hpat hocc))
    rw [findFirstIdx_eq_none_of (fun k _ _ => by simp [hall k])]
  | some M =>
    obtain ⟨hM, hMlt, hMmax⟩ := findLastIdx_eq_some hlast
    have hpatlen : 0 < pat.length := List.length_pos.mpr hpat
    have hnolater : noLaterOcc pat s M = true := by
      unfold noLaterOcc
      rw [decide_eq_true_iff]
      intro j hj hsucc
      exact hMmax j (by omega) (by omega)
    have hfirst : findFirstIdx
        (fun i => occAt pat s i && noLaterOcc pat s i) 0 (s.length + 1)
        = some M := by
      apply findFirstIdx_eq_some_of
      · rw [Bool.and_eq_true]; exact ⟨hM, hnolater⟩
      · exact Nat.zero_le _
      · omega
      · intro k _ hkM
        by_cases hocc : occAt pat s k = true
        · have hsepk := hsep k M hocc hM hkM
          have hnl : noLaterOcc pat s k = false := by
            unfold noLaterOcc
            rw [decide_eq_false_iff_not]
            intro hforall
            have hMfalse := hforall M (by omega) hsepk
            rw [hM] at hMfalse
            cases hMfalse
          simp [hnl]
        · simp [Bool.eq_false_iff.mpr hocc]
    rw [hfirst]

/-- C4 counterexample: with prefix `aa` the path `/aaaa_1` contains
overlapping occurrences of the prefix (at indices 1, 2 and 3); the source
regex matches the occurrence at index 2 — not the last occurrence at
index 3 — and its replacement also destroys the earlier occurrences, so the
result differs from replacing the last occurrence. -/
theorem claim_c4_counterexample :
    jsReplaceOne "aa".toList "xy".toList "/aaaa_1".toList
      ≠ specReplaceLast "aa".toList "xy".toList "/aaaa_1".toList ∧
    jsReplaceOne "aa".toList "xy".toList "/aaaa_1".toList
      = "/axya_1".toList ∧
    specReplaceLast "aa".toList "xy".toList "/aaaa_1".toList
      = "/aaxy_1".toList := by
  refine ⟨by decide, by decide, by decide⟩

/-- Witness for C4 (amended): on `/abz/ab_1` the occurrences of `ab` do not
overlap, and the regex replacement equals replacing the last occurrence. -/
theorem claim_c4_witness :
    jsReplaceOne "ab".toList "xy".toList "/abz/ab_1".toList
      = specReplaceLast "ab".toList "xy".toList "/abz/ab_1".toList := by
  apply claim_c4_last_occurrence_amended
  · decide
  · intro i j hi hj hij
    have hlen : ("/abz/ab_1".toList).length = 9 := by decide
    have hib := occAt_lt_length (by decide : "ab".toList ≠ []) hi
    have hjb := occAt_lt_length (by decide : "ab".toList ≠ []) hj
    rw [hlen] at hib hjb
    have hbound : ∀ a, a < 9 → ∀ b, b < 9 →
        occAt "ab".toList "/abz/ab_1".toList a = true →
        occAt "ab".toList "/abz/ab_1".toList b = true → a < b →
        a + ("ab".toList).length ≤ b := by decide
    exact hbound i hib j hjb hi hj hij

/-- The source regex with identical pattern and replacement never changes the
string (second-run behaviour of `rename`). -/
theorem jsReplaceOne_self (pat s : List Char) :
    jsReplaceOne pat pat s = s := by
  unfold jsReplaceOne
  cases hfind : findFirstIdx
      (fun i => occAt pat s i && noLaterOcc pat s i) 0 (s.length + 1) with
  | none => rfl
  | some i =>
    obtain ⟨hp, -, -, -⟩ := findFirstIdx_eq_some hfind
    rw [Bool.and_eq_true] at hp
    exact splice_self hp.1

theorem cardOrder_iff {a b : FsCard} :
    cardOrder a b ↔ b.path.length ≤ a.path.length := by
  unfold cardOrder sortCardsCmp
  split_ifs with h1 h2 <;> constructor <;> intro h <;> omega

theorem strictAnc.length_lt {p q : List Char} (h : strictAnc p q) :
    p.length < q.length := by
  obtain ⟨r, rfl⟩ := h
  simp

theorem map_jsReplaceOne_self (rep : List Char) (l : List (List Char)) :
    l.map (jsReplaceOne rep rep) = l := by
  induction l with
  | nil => rfl
  | cons a t ih => simp [jsReplaceOne_self, ih]

/-- A second rewrite with pattern = replacement fixes every card produced by
a first rewrite (paths and attachment names are unchanged; the `index.adoc`
of an attachment-bearing card was already reduced to the empty string). -/
theorem replaceCardPathModel_idem (pat rep : List Char) (c : FsCard) :
    replaceCardPathModel renameReadOptions rep rep
      (replaceCardPathModel renameReadOptions pat rep c)
    = replaceCardPathModel renameReadOptions pat rep c := by
  cases c with
  | mk path att adoc tmpl =>
    cases tmpl with
    | true => simp [replaceCardPathModel, jsReplaceOne_self]
    | false =>
      cases att with
      | nil =>
        simp [replaceCardPathModel, jsReplaceOne_self]
      | cons a t =>
        simp [replaceCardPathModel, jsReplaceOne_self,
          map_jsReplaceOne_self, fetchContent, renameReadOptions]

/-! ## Claim theorems for the rename engine -/

/-- C3: `Rename.rename` sorts the enumerated cards with `sortCards`
(non-increasing path length, deepest first), so in the processing order no
earlier-processed card is a strict ancestor of a later one: every descendant
card's directory is renamed before its ancestor's, and at no intermediate
point does a not-yet-renamed card's recorded path pass through an
already-renamed ancestor directory.  The sorted list is a permutation of the
enumerated cards. -/
theorem claim_c3_descendants_renamed_first (cards : List FsCard) :
    (List.insertionSort cardOrder cards).Pairwise
      (fun a b => b.path.length ≤ a.path.length ∧ ¬ strictAnc a.path b.path)
    ∧ (List.insertionSort cardOrder cards).Perm cards := by
  constructor
  · have hs : List.Pairwise cardOrder (List.insertionSort cardOrder cards) :=
      List.sorted_insertionSort cardOrder cards
    refine hs.imp ?_
    intro a b hab
    rw [cardOrder_iff] at hab
    exact ⟨hab, fun hanc => absurd hanc.length_lt (by omega)⟩
  · exact List.perm_insertionSort cardOrder cards

/-- C5: rename is idempotent.  After `rename(path, P)` the configured prefix
is `P`, so a second `rename(path, P)` substitutes `P` for `P` (identity on
every card path and attachment name) and rewrites the `index.adoc` of
attachment-bearing cards with the same empty content the first run left
there: the on-disk tree after the second run equals the tree after the
first run. -/
theorem claim_c5_rename_idempotent (rep : List Char) (s : RenState) :
    (renameOp rep (renameOp rep s)).keyPfx = (renameOp rep s).keyPfx ∧
    (renameOp rep (renameOp rep s)).cards.Perm (renameOp rep s).cards := by
  refine ⟨rfl, ?_⟩
  have hfix : ∀ x ∈ List.insertionSort cardOrder (renameOp rep s).cards,
      replaceCardPathModel renameReadOptions rep rep x = x := by
    intro x hx
    rw [List.mem_insertionSort cardOrder] at hx
    have hx' : x ∈ (List.insertionSort cardOrder s.cards).map
        (replaceCardPathModel renameReadOptions s.keyPfx rep) := hx
    obtain ⟨c, -, rfl⟩ := List.mem_map.mp hx'
    exact replaceCardPathModel_idem _ _ _
  have heq : (renameOp rep (renameOp rep s)).cards
      = List.insertionSort cardOrder (renameOp rep s).cards := by
    have hmap : (renameOp rep (renameOp rep s)).cards
        = (List.insertionSort cardOrder (renameOp rep s).cards).map
            (replaceCardPathModel renameReadOptions rep rep) := rfl
    rw [hmap, List.map_congr_left hfix]
    exact List.map_id' _
  rw [heq]
  exact List.perm_insertionSort _ _

/-- C10: frame effect of rename on `index.adoc`.  The enumeration used by
`Rename.rename` does not request card content; consequently a live card
with no attachments keeps its `index.adoc` bytes unchanged, while a live
card with at least one attachment gets its `index.adoc` rewritten wholesale
from the absent in-memory content field, i.e. to the empty string. -/
theorem claim_c10_rename_adoc_frame (rep : List Char) (s : RenState)
    (c : FsCard) (hc : c ∈ s.cards) (hlive : c.isTemplate = false) :
    renameReadOptions.content = false ∧
    (c.attachmentNames = [] →
      (replaceCardPathModel renameReadOptions s.keyPfx rep c).adoc = c.adoc) ∧
    (c.attachmentNames ≠ [] →
      (replaceCardPathModel renameReadOptions s.keyPfx rep c).adoc = []) ∧
    replaceCardPathModel renameReadOptions s.keyPfx rep c
      ∈ (renameOp rep s).cards := by
  refine ⟨rfl, ?_, ?_, ?_⟩
  · intro hatt
    simp [replaceCardPathModel, hlive, hatt]
  · intro hatt
    cases hattl : c.attachmentNames with
    | nil => exact absurd hattl hatt
    | cons a t =>
      simp [replaceCardPathModel, hlive, hattl, fetchContent,
        renameReadOptions]
  · show _ ∈ (List.insertionSort cardOrder s.cards).map _
    exact List.mem_map_of_mem _ ((List.mem_insertionSort cardOrder).mpr hc)

/-- Witness for C10: on a concrete attachment-bearing live card the rename
pass rewrites `index.adoc` to the empty string and the rewritten card is in
the renamed state. -/
theorem claim_c10_witness :
    renameReadOptions.content = false ∧
    (replaceCardPathModel renameReadOptions c10State.keyPfx "xy".toList
      c10Card).adoc = [] ∧
    replaceCardPathModel renameReadOptions c10State.keyPfx "xy".toList c10Card
      ∈ (renameOp "xy".toList c10State).cards := by
  have h := claim_c10_rename_adoc_frame "xy".toList c10State c10Card
    (by simp [c10State]) (by simp [c10Card])
  exact ⟨h.1, h.2.2.1 (by simp [c10Card]), h.2.2.2⟩

/-! ## Helper lemmas for the create model -/

theorem lookupEntry_eq_none_of_not_exists :
    ∀ {files : List (String × String)} {name : String},
      resourceExists files name = false →
      lookupEntry files (name ++ ".json") = none := by
  intro files
  induction files with
  | nil => intro name _; rfl
  | cons e rest ih =>
    obtain ⟨k0, v0⟩ := e
    intro name h
    unfold resourceExists at h
    rw [List.any_cons, Bool.or_eq_false_iff] at h
    obtain ⟨h1, h2⟩ := h
    rw [Bool.or_eq_false_iff, decide_eq_false_iff_not,
      decide_eq_false_iff_not] at h1
    simp only [lookupEntry]
    rw [if_neg h1.1]
    exact ih h2

theorem lookupEntry_append_some {α : Type} :
    ∀ {files : List (String × α)} {k : String} {v : α}
      (ext : List (String × α)), lookupEntry files k = some v →
      lookupEntry (files ++ ext) k = some v := by
  intro files
  induction files with
  | nil => intro k v ext h; cases h
  | cons e rest ih =>
    obtain ⟨k0, v0⟩ := e
    intro k v ext h
    rw [List.cons_append]
    simp only [lookupEntry] at h ⊢
    by_cases he : k0 = k
    · rw [if_pos he] at h ⊢
      exact h
    · rw [if_neg he] at h ⊢
      exact ih ext h

theorem writeExclusive_of_isSome {files : List (String × String)}
    {name : String} (content : String)
    (h : (lookupEntry files name).isSome = true) :
    writeExclusive files name content
      = Except.error (CreateError.writeConflict name) := by
  unfold writeExclusive
  rw [if_pos h]

theorem writeExclusive_ok_eq {files files' : List (String × String)}
    {name content : String}
    (h : writeExclusive files name content = Except.ok files') :
    files' = files ++ [(name, content)] := by
  unfold writeExclusive at h
  by_cases hs : (lookupEntry files name).isSome = true
  · rw [if_pos hs] at h; cases h
  · rw [if_neg hs] at h
    cases h
    rfl

theorem writeExclusive_ok_of_none {files : List (String × String)}
    {name : String} (content : String)
    (h : lookupEntry files name = none) :
    writeExclusive files name content
      = Except.ok (files ++ [(name, content)]) := by
  unfold writeExclusive
  rw [h]
  rfl

theorem updateEntry_lookup_ne {α : Type} :
    ∀ {l : List (String × α)} {key k : String} (nv : α), k ≠ key →
      lookupEntry (updateEntry l key nv) k = lookupEntry l k := by
  intro l
  induction l with
  | nil => intro key k nv _; rfl
  | cons e rest ih =>
    obtain ⟨k0, v0⟩ := e
    intro key k nv hne
    simp only [updateEntry]
    by_cases he : k0 = key
    · rw [if_pos he]
      simp only [lookupEntry]
      rw [if_neg (by rw [he]; exact fun h => hne h.symm),
        if_neg (by rw [he]; exact fun h => hne h.symm)]
    · rw [if_neg he]
      simp only [lookupEntry]
      by_cases hk : k0 = k
      · rw [if_pos hk, if_pos hk]
      · rw [if_neg hk, if_neg hk]
        exact ih nv hne

theorem collectAddCards_isOk_false {addCard : Nat → Except String String} :
    ∀ {n : Nat}, (∃ i, i < n ∧ (addCard i).isOk = false) →
      (collectAddCards addCard n).isOk = false := by
  intro n
  induction n with
  | zero =>
    rintro ⟨i, hi, -⟩
    omega
  | succ m ih =>
    rintro ⟨i, hi, hbad⟩
    unfold collectAddCards
    cases hprev : collectAddCards addCard m with
    | error e => rfl
    | ok acc =>
      rcases Nat.lt_succ_iff_lt_or_eq.mp hi with hlt | rfl
      · have := ih ⟨i, hlt, hbad⟩
        rw [hprev] at this
        cases this
      · cases hcall : addCard i with
        | error e => rfl
        | ok v =>
          rw [hcall] at hbad
          cases hbad

theorem writeExclusive_ok_none {files files' : List (String × String)}
    {name content : String}
    (h : writeExclusive files name content = Except.ok files') :
    lookupEntry files name = none := by
  unfold writeExclusive at h
  by_cases hs : (lookupEntry files name).isSome = true
  · rw [if_pos hs] at h; cases h
  · rw [Bool.not_eq_true] at hs
    exact Option.not_isSome_iff_eq_none.mp (by rw [hs]; exact Bool.false_ne_true)

theorem createCardtypeModel_ok {p p' : ProjectFiles} {name workflow : String}
    (h : createCardtypeModel p name workflow = Except.ok p') :
    lookupEntry p.cardtypes (name ++ ".json") = none ∧
    p'.cardtypes
      = p.cardtypes ++ [(name ++ ".json", cardtypeJson name workflow)] := by
  unfold createCardtypeModel at h
  by_cases h1 : resourceExists p.workflows workflow
  · rw [h1] at h
    simp only [Bool.not_true, Bool.false_eq_true, if_false] at h
    cases hw : writeExclusive p.cardtypes (name ++ ".json")
        (cardtypeJson name workflow) with
    | error e => rw [hw] at h; cases h
    | ok files =>
      rw [hw] at h
      cases h
      exact ⟨writeExclusive_ok_none hw, writeExclusive_ok_eq hw⟩
  · rw [Bool.not_eq_true] at h1
    rw [h1] at h
    simp only [Bool.not_false, if_true] at h
    cases h

theorem createFieldTypeModel_ok {pattern : String} {p p' : ProjectFiles}
    {name dataType : String}
    (h : createFieldTypeModel pattern p name dataType = Except.ok p') :
    lookupEntry p.fieldtypes (name ++ ".json") = none ∧
    p'.fieldtypes
      = p.fieldtypes ++ [(name ++ ".json", fieldTypeJson name dataType)] := by
  unfold createFieldTypeModel at h
  by_cases h1 : resourceExists p.fieldtypes name
  · rw [if_pos h1] at h; cases h
  · rw [if_neg h1] at h
    by_cases h2 : dataType ∈ supportedFieldTypes pattern
    · rw [if_pos h2] at h
      cases hw : writeExclusive p.fieldtypes (name ++ ".json")
          (fieldTypeJson name dataType) with
      | error e => rw [hw] at h; cases h
      | ok files =>
        rw [hw] at h
        cases h
        exact ⟨writeExclusive_ok_none hw, writeExclusive_ok_eq hw⟩
    · rw [if_neg h2] at h; cases h

theorem createLinkTypeModel_ok {validate : String → List String}
    {p p' : ProjectFiles} {name : String}
    (h : createLinkTypeModel validate p name = Except.ok p') :
    lookupEntry p.linktypes (name ++ ".json") = none ∧
    p'.linktypes = p.linktypes ++ [(name ++ ".json", linkTypeJson name)] := by
  unfold createLinkTypeModel at h
  by_cases h1 : resourceExists p.linktypes name
  · rw [if_pos h1] at h; cases h
  · rw [if_neg h1] at h
    by_cases h2 : (validate (linkTypeJson name)).length ≠ 0
    · rw [if_pos h2] at h; cases h
    · rw [if_neg h2] at h
      cases hw : writeExclusive p.linktypes (name ++ ".json")
          (linkTypeJson name) with
      | error e => rw [hw] at h; cases h
      | ok files =>
        rw [hw] at h
        cases h
        exact ⟨writeExclusive_ok_none hw, writeExclusive_ok_eq hw⟩

theorem createWorkflowModel_ok {validate : WorkflowDoc → List String}
    {p p' : ProjectFiles} {wf : WorkflowDoc}
    (h : createWorkflowModel validate p wf = Except.ok p') :
    lookupEntry p.workflows (wf.name ++ ".json") = none ∧
    p'.workflows = p.workflows ++ [(wf.name ++ ".json", wf.body)] := by
  unfold createWorkflowModel at h
  by_cases h1 : (validate wf).length ≠ 0
  · rw [if_pos h1] at h; cases h
  · rw [if_neg h1] at h
    cases hw : writeExclusive p.workflows (wf.name ++ ".json") wf.body with
    | error e => rw [hw] at h; cases h
    | ok files =>
      rw [hw] at h
      cases h
      exact ⟨writeExclusive_ok_none hw, writeExclusive_ok_eq hw⟩

theorem createAttachmentModel_ok
    {folder folder' : List (String × String)} {inModule : Bool}
    {fileName content : String}
    (h : createAttachmentModel (some folder) inModule fileName content
      = Except.ok folder') :
    lookupEntry folder fileName = none ∧
    folder' = folder ++ [(fileName, content)] := by
  simp only [createAttachmentModel] at h
  by_cases h1 : inModule = true
  · rw [if_pos h1] at h; cases h
  · rw [if_neg h1] at h
    exact ⟨writeExclusive_ok_none h, writeExclusive_ok_eq h⟩

/-- C1 counterexample: with `count = 2`, one of the two `addCard` calls
succeeds and one fails, yet `addCards` fails as a whole instead of
reporting the succeeded subset. -/
theorem claim_c1_counterexample :
    (c1AddCard 0).isOk = true ∧ (c1AddCard 1).isOk = false ∧
    (addCardsModel 2 c1AddCard).isOk = false :=
  ⟨rfl, rfl, rfl⟩

/-- C1 (amended): if any of the `count` `addCard` invocations fails, the
whole `addCards` call fails — the source awaits every call before the
outcomes are collected, and the settlement handler throws on any rejected
outcome, so the succeeded subset is never reported when a failure occurs. -/
theorem claim_c1_any_failure_fails_addCards (count : Nat)
    (addCard : Nat → Except String String)
    (h : ∃ i, i < count ∧ (addCard i).isOk = false) :
    (addCardsModel count addCard).isOk = false := by
  unfold addCardsModel
  cases hc : collectAddCards addCard count with
  | error e => rfl
  | ok cards =>
    have hbad := collectAddCards_isOk_false h
    rw [hc] at hbad
    cases hbad

/-- Witness for C1 (amended) at the concrete outcome family. -/
theorem claim_c1_witness :
    (1 < 2 ∧ (c1AddCard 1).isOk = false) ∧
    (addCardsModel 2 c1AddCard).isOk = false :=
  ⟨⟨by decide, by decide⟩,
    claim_c1_any_failure_fails_addCards 2 c1AddCard ⟨1, by decide, by decide⟩⟩

/-- C2 counterexample: `createCardtype` and `createWorkflow` have no
name-uniqueness check, so creating an existing name fails with the
exclusive-create write conflict, not with a descriptive already-exists
error produced before the write. -/
theorem claim_c2_counterexample :
    createCardtypeModel c2Project "page" "basic"
      = Except.error (CreateError.writeConflict "page.json") ∧
    createCardtypeModel c2Project "page" "basic"
      ≠ Except.error (CreateError.alreadyExists "cardtype" "page") ∧
    createWorkflowModel acceptAllWorkflows c2Project c2Workflow
      = Except.error (CreateError.writeConflict "basic.json") ∧
    createWorkflowModel acceptAllWorkflows c2Project c2Workflow
      ≠ Except.error (CreateError.alreadyExists "workflow" "basic") := by
  refine ⟨by decide, by decide, by decide, by decide⟩

/-- C2 (amended): `createFieldType` and `createLinkType` check name
uniqueness before any write and fail with a descriptive already-exists
error; `createCardtype` and `createWorkflow` have no such pre-write check —
creating an existing name still always fails the second time, but only with
the exclusive-create write conflict raised at the write itself. -/
theorem claim_c2_uniqueness_checks (pattern : String) (p : ProjectFiles)
    (name workflow dataType : String) (validateLt : String → List String)
    (validateWf : WorkflowDoc → List String) (wf : WorkflowDoc) :
    (resourceExists p.fieldtypes name = true →
      createFieldTypeModel pattern p name dataType
        = Except.error (CreateError.alreadyExists "field type" name)) ∧
    (resourceExists p.linktypes name = true →
      createLinkTypeModel validateLt p name
        = Except.error (CreateError.alreadyExists "link type" name)) ∧
    ((lookupEntry p.cardtypes (name ++ ".json")).isSome = true →
      resourceExists p.workflows workflow = true →
      createCardtypeModel p name workflow
        = Except.error (CreateError.writeConflict (name ++ ".json"))) ∧
    ((lookupEntry p.workflows (wf.name ++ ".json")).isSome = true →
      validateWf wf = [] →
      createWorkflowModel validateWf p wf
        = Except.error (CreateError.writeConflict (wf.name ++ ".json"))) := by
  refine ⟨?_, ?_, ?_, ?_⟩
  · intro h
    unfold createFieldTypeModel
    rw [if_pos h]
  · intro h
    unfold createLinkTypeModel
    rw [if_pos h]
  · intro hsome hwfx
    unfold createCardtypeModel
    rw [hwfx, writeExclusive_of_isSome (cardtypeJson name workflow) hsome]
    simp
  · intro hsome hval
    unfold createWorkflowModel
    rw [hval, writeExclusive_of_isSome wf.body hsome]
    simp

/-- Witness for C2 (amended): each of the four operations on `c2Project`
with an already-used name fails in the way the amended claim states. -/
theorem claim_c2_witness :
    createFieldTypeModel c8Pattern c2Project "size" "number"
      = Except.error (CreateError.alreadyExists "field type" "size") ∧
    createLinkTypeModel acceptAllLinkTypes c2Project "blocks"
      = Except.error (CreateError.alreadyExists "link type" "blocks") ∧
    createCardtypeModel c2Project "page" "basic"
      = Except.error (CreateError.writeConflict "page.json") ∧
    createWorkflowModel acceptAllWorkflows c2Project c2Workflow
      = Except.error (CreateError.writeConflict "basic.json") := by
  refine ⟨?_, ?_, ?_, ?_⟩
  · exact (claim_c2_uniqueness_checks c8Pattern c2Project "size" "basic"
      "number" acceptAllLinkTypes acceptAllWorkflows c2Workflow).1 (by decide)
  · exact (claim_c2_uniqueness_checks c8Pattern c2Project "blocks" "basic"
      "number" acceptAllLinkTypes acceptAllWorkflows c2Workflow).2.1
      (by decide)
  · exact (claim_c2_uniqueness_checks c8Pattern c2Project "page" "basic"
      "number" acceptAllLinkTypes acceptAllWorkflows c2Workflow).2.2.1
      (by decide) (by decide)
  · exact (claim_c2_uniqueness_checks c8Pattern c2Project "page" "basic"
      "number" acceptAllLinkTypes acceptAllWorkflows c2Workflow).2.2.2
      (by decide) rfl

/-- C8 counterexample: when a field type of the requested name already
exists, `createFieldType` with an unsupported data type fails with the
already-exists error, not with the not-supported error the claim
prescribes for every unsupported data type. -/
theorem claim_c8_counterexample :
    ¬ ("bogus" ∈ supportedFieldTypes c8Pattern) ∧
    createFieldTypeModel c8Pattern c2Project "size" "bogus"
      = Except.error (CreateError.alreadyExists "field type" "size") ∧
    createFieldTypeModel c8Pattern c2Project "size" "bogus"
      ≠ Except.error (CreateError.dataTypeNotSupported "bogus") := by
  refine ⟨by decide, by decide, by decide⟩

/-- C8 (amended): when no field type of the given name exists, an
unsupported data type always fails with the not-supported error and a data
type in the schema-derived supported set always succeeds; the supported set
is computed by `supportedFieldTypes` from the schema pattern, not
hard-coded.  (When the name is already taken the uniqueness check runs
first and reports already-exists even for an unsupported data type.) -/
theorem claim_c8_supported_set (pattern : String) (p : ProjectFiles)
    (name dataType : String)
    (hfree : resourceExists p.fieldtypes name = false) :
    (dataType ∉ supportedFieldTypes pattern →
      createFieldTypeModel pattern p name dataType
        = Except.error (CreateError.dataTypeNotSupported dataType)) ∧
    (dataType ∈ supportedFieldTypes pattern →
      createFieldTypeModel pattern p name dataType
        = Except.ok { p with fieldtypes := (p.fieldtypes ++
            [(name ++ ".json", fieldTypeJson name dataType)]) }) := by
  have hfree2 : ¬ (resourceExists p.fieldtypes name = true) := by
    rw [hfree]
    exact Bool.false_ne_true
  constructor
  · intro hns
    unfold createFieldTypeModel
    rw [if_neg hfree2, if_neg hns]
  · intro hin
    unfold createFieldTypeModel
    rw [if_neg hfree2, if_pos hin,
      writeExclusive_ok_of_none _ (lookupEntry_eq_none_of_not_exists hfree)]

/-- Witness for C8 (amended) at concrete data types, one outside and one
inside the supported set derived from the schema pattern. -/
theorem claim_c8_witness :
    createFieldTypeModel c8Pattern c8FreeProject "width" "bogus"
      = Except.error (CreateError.dataTypeNotSupported "bogus") ∧
    createFieldTypeModel c8Pattern c8FreeProject "width" "number"
      = Except.ok { c8FreeProject with fieldtypes := (c8FreeProject.fieldtypes
          ++ [("width.json", fieldTypeJson "width" "number")]) } := by
  refine ⟨?_, ?_⟩
  · exact (claim_c8_supported_set c8Pattern c8FreeProject "width" "bogus"
      (by decide)).1 (by decide)
  · exact (claim_c8_supported_set c8Pattern c8FreeProject "width" "number"
      (by decide)).2 (by decide)

/-- C9: the link entry pushed by `createLink` carries exactly the keys
`linkType`, `cardKey` and (when a description was given) `linkDescription`;
it never carries a `direction` key — even though the `card-base-schema`
link item declares `direction` as required, allows no additional
properties, and spells its key names `cardkey` and `linktype`. -/
theorem claim_c9_no_direction_key (linkType cardKey : String)
    (desc : Option String) :
    "direction" ∉ linkEntryKeys (createLinkEntry linkType cardKey desc) ∧
    linkEntryKeys (createLinkEntry linkType cardKey desc)
      = ["linkType", "cardKey"] ++
          (if desc.isSome then ["linkDescription"] else []) ∧
    "direction" ∈ cardBaseLinkRequired ∧
    cardBaseLinkAdditionalProperties = false ∧
    "cardkey" ∈ cardBaseLinkRequired ∧ "linktype" ∈ cardBaseLinkRequired ∧
    "linkType" ∉ cardBaseLinkPropertyNames ∧
    "cardKey" ∉ cardBaseLinkPropertyNames := by
  cases desc with
  | none =>
    simp only [linkEntryKeys, createLinkEntry]
    decide
  | some d =>
    simp only [linkEntryKeys, createLinkEntry, Option.isSome_some, if_true]
    decide

/-- C6: no create operation silently overwrites existing on-disk state.
Every resource-file write (`createCardtype`, `createFieldType`,
`createLinkType`, `createWorkflow`) and every attachment copy or write uses
exclusive-create semantics: if a file of the target name already exists —
including one that appeared between the uniqueness check and the write —
the operation fails, and a successful operation never changes the content
stored under any pre-existing file name. -/
theorem claim_c6_exclusive_create (pattern : String) (p q : ProjectFiles)
    (name workflow dataType fileName content k v : String)
    (validateLt : String → List String)
    (validateWf : WorkflowDoc → List String) (wf : WorkflowDoc)
    (folder folder2 : List (String × String)) (inModule : Bool) :
    ((lookupEntry p.cardtypes (name ++ ".json")).isSome = true →
      (createCardtypeModel p name workflow).isOk = false) ∧
    (createCardtypeModel p name workflow = Except.ok q →
      lookupEntry p.cardtypes k = some v →
      lookupEntry q.cardtypes k = some v) ∧
    ((lookupEntry p.fieldtypes (name ++ ".json")).isSome = true →
      (createFieldTypeModel pattern p name dataType).isOk = false) ∧
    (createFieldTypeModel pattern p name dataType = Except.ok q →
      lookupEntry p.fieldtypes k = some v →
      lookupEntry q.fieldtypes k = some v) ∧
    ((lookupEntry p.linktypes (name ++ ".json")).isSome = true →
      (createLinkTypeModel validateLt p name).isOk = false) ∧
    (createLinkTypeModel validateLt p name = Except.ok q →
      lookupEntry p.linktypes k = some v →
      lookupEntry q.linktypes k = some v) ∧
    ((lookupEntry p.workflows (wf.name ++ ".json")).isSome = true →
      (createWorkflowModel validateWf p wf).isOk = false) ∧
    (createWorkflowModel validateWf p wf = Except.ok q →
      lookupEntry p.workflows k = some v →
      lookupEntry q.workflows k = some v) ∧
    ((lookupEntry folder fileName).isSome = true →
      (createAttachmentModel (some folder) inModule fileName
        content).isOk = false) ∧
    (createAttachmentModel (some folder) inModule fileName content
        = Except.ok folder2 →
      lookupEntry folder k = some v → lookupEntry folder2 k = some v) := by
  refine ⟨?_, ?_, ?_, ?_, ?_, ?_, ?_, ?_, ?_, ?_⟩
  · intro hsome
    cases hres : createCardtypeModel p name workflow with
    | error e => rfl
    | ok q2 =>
      obtain ⟨hnone, -⟩ := createCardtypeModel_ok hres
      rw [hnone] at hsome
      cases hsome
  · intro hok hkv
    obtain ⟨-, happ⟩ := createCardtypeModel_ok hok
    rw [happ]
    exact lookupEntry_append_some _ hkv
  · intro hsome
    cases hres : createFieldTypeModel pattern p name dataType with
    | error e => rfl
    | ok q2 =>
      obtain ⟨hnone, -⟩ := createFieldTypeModel_ok hres
      rw [hnone] at hsome
      cases hsome
  · intro hok hkv
    obtain ⟨-, happ⟩ := createFieldTypeModel_ok hok
    rw [happ]
    exact lookupEntry_append_some _ hkv
  · intro hsome
    cases hres : createLinkTypeModel validateLt p name with
    | error e => rfl
    | ok q2 =>
      obtain ⟨hnone, -⟩ := createLinkTypeModel_ok hres
      rw [hnone] at hsome
      cases hsome
  · intro hok hkv
    obtain ⟨-, happ⟩ := createLinkTypeModel_ok hok
    rw [happ]
    exact lookupEntry_append_some _ hkv
  · intro hsome
    cases hres : createWorkflowModel validateWf p wf with
    | error e => rfl
    | ok q2 =>
      obtain ⟨hnone, -⟩ := createWorkflowModel_ok hres
      rw [hnone] at hsome
      cases hsome
  · intro hok hkv
    obtain ⟨-, happ⟩ := createWorkflowModel_ok hok
    rw [happ]
    exact lookupEntry_append_some _ hkv
  · intro hsome
    cases hres : createAttachmentModel (some folder) inModule fileName
        content with
    | error e => rfl
    | ok q2 =>
      obtain ⟨hnone, -⟩ := createAttachmentModel_ok hres
      rw [hnone] at hsome
      cases hsome
  · intro hok hkv
    obtain ⟨-, happ⟩ := createAttachmentModel_ok hok
    rw [happ]
    exact lookupEntry_append_some _ hkv

/-- Witness for C6: on `c2Project`, creating cardtype `page` over the
existing `page.json` fails, and the successful creation of field type
`area` leaves the pre-existing `size.json` content untouched. -/
theorem claim_c6_witness :
    (createCardtypeModel c2Project "page" "basic").isOk = false ∧
    lookupEntry c6Result.fieldtypes "size.json"
      = some "existing field type" := by
  refine ⟨?_, ?_⟩
  · exact (claim_c6_exclusive_create c8Pattern c2Project c6Result "page"
      "basic" "number" "photo.png" "bytes" "size.json" "existing field type"
      acceptAllLinkTypes acceptAllWorkflows c2Workflow [] [] false).1
      (by decide)
  · exact (claim_c6_exclusive_create c8Pattern c2Project c6Result "area"
      "basic" "number" "photo.png" "bytes" "size.json" "existing field type"
      acceptAllLinkTypes acceptAllWorkflows c2Workflow [] [] false).2.2.2.1
      (by decide) (by decide)

/-- C7: `createLink` fails — before any card is modified — when the source
card does not exist, the destination card key does not resolve, the link
type is not defined, or an identical `(linkType, cardKey, linkDescription)`
tuple already exists on the source card; otherwise it appends exactly one
new link entry to the source card's links array, persists it through
`updateCardMetadata`, and leaves every other card unchanged. -/
theorem claim_c7_createLink (st : LinkState)
    (cardKey destKey linkType : String) (desc : Option String) :
    ((lookupEntry st.cards cardKey = none ∨
      lookupEntry st.cards destKey = none ∨
      resourceExists st.linkTypeFiles linkType = false ∨
      (∃ links, lookupEntry st.cards cardKey = some links ∧
        duplicateLink links linkType destKey desc = true)) →
      (createLinkModel st cardKey destKey linkType desc).isOk = false) ∧
    (∀ links, lookupEntry st.cards cardKey = some links →
      lookupEntry st.cards destKey ≠ none →
      resourceExists st.linkTypeFiles linkType = true →
      duplicateLink links linkType destKey desc = false →
      createLinkModel st cardKey destKey linkType desc
        = Except.ok { st with cards := (updateEntry st.cards cardKey
            (links ++ [createLinkEntry linkType destKey desc])) } ∧
      ∀ k, k ≠ cardKey →
        lookupEntry (updateEntry st.cards cardKey
            (links ++ [createLinkEntry linkType destKey desc])) k
          = lookupEntry st.cards k) := by
  constructor
  · intro h
    unfold createLinkModel
    cases hlk : lookupEntry st.cards cardKey with
    | none => rfl
    | some links =>
      by_cases hdest : (lookupEntry st.cards destKey).isNone = true
      · simp only [hdest, if_true]
        rfl
      · by_cases hlt : resourceExists st.linkTypeFiles linkType = true
        · by_cases hdup : duplicateLink links linkType destKey desc = true
          · simp only [hdest, hlt, hdup, Bool.not_true, if_true, if_false]
            rfl
          · exfalso
            rcases h with hA | hB | hC | ⟨links2, hl2, hd2⟩
            · rw [hA] at hlk
              cases hlk
            · exact hdest (by rw [hB]; rfl)
            · rw [hC] at hlt
              exact Bool.false_ne_true hlt
            · rw [hlk] at hl2
              injection hl2 with he
              rw [← he] at hd2
              exact hdup hd2
        · simp only [hdest, hlt]
          rfl
  · intro links hlk hdest hlt hdup
    have hdest2 : (lookupEntry st.cards destKey).isNone = false := by
      rw [Bool.eq_false_iff]
      intro hn
      exact hdest (Option.isNone_iff_eq_none.mp hn)
    constructor
    · unfold createLinkModel
      rw [hlk]
      simp [hdest2, hlt, hdup]
    · intro k hk
      exact updateEntry_lookup_ne _ hk

/-- Witness for C7: recreating the identical tuple fails; creating the
same link with a different description appends exactly one entry to
`demo_1` and leaves `demo_2` unchanged. -/
theorem claim_c7_witness :
    (createLinkModel c7State "demo_1" "demo_2" "blocks" none).isOk = false ∧
    createLinkModel c7State "demo_1" "demo_2" "blocks" (some "why")
      = Except.ok c7Succ ∧
    lookupEntry c7Succ.cards "demo_2" = lookupEntry c7State.cards "demo_2" := by
  refine ⟨?_, ?_, ?_⟩
  · exact (claim_c7_createLink c7State "demo_1" "demo_2" "blocks" none).1
      (Or.inr (Or.inr (Or.inr
        ⟨[⟨"blocks", "demo_2", none⟩], by decide, by decide⟩)))
  · have h := (claim_c7_createLink c7State "demo_1" "demo_2" "blocks"
      (some "why")).2 [⟨"blocks", "demo_2", none⟩] (by decide)
      (by decide) (by decide) (by decide)
    exact h.1.trans (by decide)
  · decide

end Cyberismo
